import Mathlib

/-!
Shallow embedding of the poker engine in `src/cards.py`, `src/games.py` and
`src/holdem.py`, together with theorems settling the specification claims
about it.  Python dicts and `collections.Counter`s are modelled as
insertion-ordered association lists, Python exceptions as `Except PyError`
results, and Python ints as `Int` (or `Nat` where the source only ever
holds non-negative counts and ranks).
-/

/-- Python exceptions raised by the modelled code paths. -/
inductive PyError where
  | typeError
  | keyError
  | valueError
  | indexError
  | insufficientFunds
  | invalidBet
  deriving DecidableEq

/-- Suit enum (src/cards.py lines 11-15). -/
inductive Suit where
  | HEARTS
  | DIAMONDS
  | CLUBS
  | SPADES
  deriving DecidableEq

/-- A playing card (src/cards.py lines 38-42).  `Card.__eq__` / `Card.__lt__`
compare the integer rank only.  `HoldEmDeck.build` (src/holdem.py lines
17-20) instantiates plain `Card`s with ranks 1..13 (1 = Ace); the subclass
`PokerCard` with its ace-high `__lt__` is never instantiated anywhere in the
repository, so every comparison and sort performed in play uses plain `<`
on the integer rank, with Ace = 1 the lowest rank. -/
structure Card where
  suit : Suit
  rank : Nat
  deriving DecidableEq

/-- One entry of `Hand.count_ranks` (src/cards.py lines 108-110): the number
of cards of rank `r` in the hand. -/
def rankCount (cards : List Card) (r : Nat) : Nat :=
  cards.countP (fun c => c.rank == r)

/-- One entry of `Hand.count_suits` (src/cards.py lines 112-114). -/
def suitCount (cards : List Card) (s : Suit) : Nat :=
  cards.countP (fun c => c.suit == s)

/-- The distinct ranks of the hand in first-occurrence order: the key order
of the Python `Counter` built by `count_ranks`. -/
def uniqueRanks (cards : List Card) : List Nat :=
  (cards.map Card.rank).foldl (fun acc r => if acc.contains r then acc else acc ++ [r]) []

/-- The distinct suits of the hand in first-occurrence order. -/
def uniqueSuits (cards : List Card) : List Suit :=
  (cards.map Card.suit).foldl (fun acc s => if acc.contains s then acc else acc ++ [s]) []

/-- `Hand.count_ranks()` as an insertion-ordered `rank -> count` map. -/
def count_ranks (cards : List Card) : List (Nat × Nat) :=
  (uniqueRanks cards).map (fun r => (r, rankCount cards r))

/-- `Hand.count_suits()` as an insertion-ordered `suit -> count` map. -/
def count_suits (cards : List Card) : List (Suit × Nat) :=
  (uniqueSuits cards).map (fun s => (s, suitCount cards s))

/-- `Counter.most_common(1)[0][0]`: the key with the largest count.  Python's
`most_common` is a stable descending sort, so the first-inserted key wins
ties; the fold below keeps the current best unless a strictly larger count
appears, which matches that.  `none` models the `IndexError` of
`most_common(1)[0]` on an empty counter. -/
def most_common_key {α : Type} (items : List (α × Nat)) : Option α :=
  match items with
  | [] => none
  | x :: rest => some ((rest.foldl (fun best p => if p.2 > best.2 then p else best) x).1)

/-- Equality of two lists of naturals viewed as sets (Python `set` equality). -/
def listSetEq (a b : List Nat) : Bool :=
  a.all (fun x => b.contains x) && b.all (fun x => a.contains x)

/-- Python `min` over a list of naturals (`none` models the `ValueError` on
an empty sequence). -/
def minNat? : List Nat → Option Nat
  | [] => none
  | x :: xs => some (xs.foldl Nat.min x)

/-- Python `max` over a list of naturals. -/
def maxNat? : List Nat → Option Nat
  | [] => none
  | x :: xs => some (xs.foldl Nat.max x)

/-- `PokerHandClassifier._is_straight_five` (src/cards.py lines 212-224):
five distinct ranks whose normalization by the minimum is the set
{0,1,2,3,4}, or {0,9,10,11,12} (the wheel, Ace low). -/
def is_straight_five (cards : List Card) : Bool :=
  let ranks := (cards.map Card.rank).dedup
  if ranks.length ≠ 5 then false
  else
    let m := (minNat? ranks).getD 0
    let normalized := ranks.map (fun r => r - m)
    listSetEq normalized [0, 1, 2, 3, 4] || listSetEq normalized [0, 9, 10, 11, 12]

/-- `PokerHandClassifier._is_flush` (src/cards.py lines 206-210): some suit
occurs at least 5 times in the whole hand. -/
def is_flush (cards : List Card) : Bool :=
  (count_suits cards).any (fun sc => sc.2 ≥ 5)

/-- `PokerHandClassifier._is_straight` (src/cards.py lines 226-231): some
5-card combination of the hand is a straight.  `itertools.combinations`
enumerates exactly the length-5 subsequences, i.e. `List.sublistsLen 5`. -/
def is_straight (cards : List Card) : Bool :=
  (List.sublistsLen 5 cards).any (fun five => is_straight_five five)

/-- `PokerHandClassifier._is_straight_flush_five` (src/cards.py lines
181-187): the 5 cards form a straight and a flush. -/
def is_straight_flush_five (cards : List Card) : Bool :=
  is_straight cards && is_flush cards

/-- `PokerHandClassifier._is_straight_flush` (src/cards.py lines 174-179):
some 5-card combination is simultaneously a straight and a flush. -/
def is_straight_flush (cards : List Card) : Bool :=
  (List.sublistsLen 5 cards).any (fun five => is_straight_flush_five five)

/-- `PokerHandClassifier._is_four_of_a_kind` (src/cards.py lines 189-194). -/
def is_four_of_a_kind (cards : List Card) : Bool :=
  (count_ranks cards).any (fun rc => rc.2 ≥ 4)

/-- `PokerHandClassifier._is_full_house` (src/cards.py lines 196-204):
`any(count == 3) and any(count == 2) or Counter(counts)[3] == 2` with
Python precedence `(A and B) or C`. -/
def is_full_house (cards : List Card) : Bool :=
  let counts := (count_ranks cards).map Prod.snd
  (counts.any (fun c => c == 3) && counts.any (fun c => c == 2))
    || counts.countP (fun c => c == 3) == 2

/-- `PokerHandClassifier._is_three_of_a_kind` (src/cards.py lines 233-238). -/
def is_three_of_a_kind (cards : List Card) : Bool :=
  (count_ranks cards).any (fun rc => rc.2 ≥ 3)

/-- `PokerHandClassifier._is_two_pair` (src/cards.py lines 240-246): at
least two ranks occur exactly twice (`Counter(counts)[2] >= 2`). -/
def is_two_pair (cards : List Card) : Bool :=
  ((count_ranks cards).map Prod.snd).countP (fun c => c == 2) ≥ 2

/-- `PokerHandClassifier._is_pair` (src/cards.py lines 248-253). -/
def is_pair (cards : List Card) : Bool :=
  (count_ranks cards).any (fun rc => rc.2 ≥ 2)

/-- `PokerHandClass` (src/cards.py lines 132-141); `value` below gives the
enum values 1..9 in ascending strength. -/
inductive PokerHandClass where
  | HIGH_CARD
  | PAIR
  | TWO_PAIR
  | THREE_OF_A_KIND
  | STRAIGHT
  | FLUSH
  | FULL_HOUSE
  | FOUR_OF_A_KIND
  | STRAIGHT_FLUSH
  deriving DecidableEq, Fintype

/-- The `.value` of the `PokerHandClass` enum member. -/
def PokerHandClass.value : PokerHandClass → Nat
  | .HIGH_CARD => 1
  | .PAIR => 2
  | .TWO_PAIR => 3
  | .THREE_OF_A_KIND => 4
  | .STRAIGHT => 5
  | .FLUSH => 6
  | .FULL_HOUSE => 7
  | .FOUR_OF_A_KIND => 8
  | .STRAIGHT_FLUSH => 9

/-- `PokerHandClassifier._classify` (src/cards.py lines 152-172): the checks
run strictly in descending strength order, first match wins. -/
def _classify (hand : List Card) : PokerHandClass :=
  if is_straight_flush hand then .STRAIGHT_FLUSH
  else if is_four_of_a_kind hand then .FOUR_OF_A_KIND
  else if is_full_house hand then .FULL_HOUSE
  else if is_flush hand then .FLUSH
  else if is_straight hand then .STRAIGHT
  else if is_three_of_a_kind hand then .THREE_OF_A_KIND
  else if is_two_pair hand then .TWO_PAIR
  else if is_pair hand then .PAIR
  else .HIGH_CARD

/-- `PokerHandClassifier.classify` (src/cards.py lines 146-150): hands of
fewer than 5 cards are unclassifiable (`None`). -/
def classify (hand : List Card) : Option PokerHandClass :=
  if hand.length < 5 then none else some (_classify hand)

/-- Stable insertion of a card into a rank-sorted list (ascending). -/
def insertByRank (c : Card) : List Card → List Card
  | [] => [c]
  | x :: xs => if c.rank < x.rank then c :: x :: xs else x :: insertByRank c xs

/-- Python `list.sort()` on a list of plain `Card`s: ascending by the integer
rank (`Card.__lt__`, src/cards.py lines 53-56; Ace = 1 sorts lowest). -/
def sortByRank (cards : List Card) : List Card :=
  cards.foldr insertByRank []

/-- Insertion sort on naturals, for `doubles.sort()` in the two-pair branch. -/
def insertNat (n : Nat) : List Nat → List Nat
  | [] => [n]
  | x :: xs => if n < x then n :: x :: xs else x :: insertNat n xs

def sortNats (l : List Nat) : List Nat :=
  l.foldr insertNat []

/-- Python slice `l[-n:]`: the last `n` elements (the whole list when it is
shorter than `n`). -/
def takeLast {α : Type} (n : Nat) (l : List α) : List α :=
  l.drop (l.length - n)

/-- The `while not self._is_straight_five(cards[-5:]): cards.pop()` loop of
`PokerHand.determine_hand_rank` (src/cards.py lines 318-319 and 366-367).
`list.pop()` removes the last (highest after the ascending sort) card.  The
loop is run with fuel `length + 1`, enough to reach the empty list, where
Python's `pop` from an empty list raises `IndexError` (the check on the
empty slice is still performed first, exactly as in the source). -/
def straightSearchLoop : Nat → List Card → Except PyError (List Card)
  | 0, _ => .error .indexError
  | fuel + 1, l =>
    if is_straight_five (takeLast 5 l) then .ok l
    else if l.isEmpty then .error .indexError
    else straightSearchLoop fuel l.dropLast

/-- Python `max` over cards, using plain `Card.__lt__` (integer rank, Ace
low); `max` keeps the current element unless a strictly greater one
appears, so the first maximal card wins ties.  `none` models the
`ValueError` on an empty sequence. -/
def maxCard? : List Card → Option Card
  | [] => none
  | x :: xs => some (xs.foldl (fun b c => if b.rank < c.rank then c else b) x)

/-- The `for card in self: if card.rank == r: append(card); break` idiom of
`determine_hand_rank`: the first card of rank `r`, as a zero- or
one-element list (nothing is appended when no card matches). -/
def firstOfRank (cards : List Card) (r : Nat) : List Card :=
  match cards.find? (fun c => c.rank == r) with
  | some c => [c]
  | none => []

/-- `PokerHand.determine_hand_rank` (src/cards.py lines 307-423): computes
the tie-break `high_cards` list for the already-assigned hand class.  All
sorts and `max`es over cards use the plain integer-rank order (the cards in
play are plain `Card`s, see `Card` above); `max` over lists of ranks
(`triples`/`doubles` in the full-house branch) is Python `max` over raw
ints, so Ace counts as 1 there.  Errors model the Python exceptions the
corresponding lines can raise. -/
def determine_hand_rank (cards : List Card) (hand_class : Option PokerHandClass) :
    Except PyError (List Card) :=
  match hand_class with
  | some .STRAIGHT_FLUSH =>
    match most_common_key (count_suits cards) with
    | none => .error .indexError
    | some flush_suit =>
      let straight_flush_cards := sortByRank (cards.filter (fun c => c.suit == flush_suit))
      match straightSearchLoop (straight_flush_cards.length + 1) straight_flush_cards with
      | .error e => .error e
      | .ok l =>
        match l.getLast? with
        | some c => .ok [c]
        | none => .error .indexError
  | some .FOUR_OF_A_KIND =>
    match most_common_key (count_ranks cards) with
    | none => .error .indexError
    | some four_rank =>
      match maxCard? (cards.filter (fun c => !(c.rank == four_rank))) with
      | none => .error .valueError
      | some hc => .ok (firstOfRank cards four_rank ++ [hc])
  | some .FULL_HOUSE =>
    let counts := count_ranks cards
    let triples := (counts.filter (fun rc => rc.2 == 3)).map Prod.fst
    match maxNat? triples with
    | none => .error .valueError
    | some first_rank =>
      let doubles := (counts.filter (fun rc => rc.2 ≥ 2 && !(rc.1 == first_rank))).map Prod.fst
      match maxNat? doubles with
      | none => .error .valueError
      | some second_rank => .ok (firstOfRank cards first_rank ++ firstOfRank cards second_rank)
  | some .FLUSH =>
    match most_common_key (count_suits cards) with
    | none => .error .indexError
    | some flush_suit => .ok (takeLast 5 (sortByRank (cards.filter (fun c => c.suit == flush_suit))))
  | some .STRAIGHT =>
    let straight_cards := sortByRank cards
    match straightSearchLoop (straight_cards.length + 1) straight_cards with
    | .error e => .error e
    | .ok l =>
      match l.getLast? with
      | some c => .ok [c]
      | none => .error .indexError
  | some .THREE_OF_A_KIND =>
    match most_common_key (count_ranks cards) with
    | none => .error .indexError
    | some three_rank =>
      let remaining := sortByRank (cards.filter (fun c => !(c.rank == three_rank)))
      match takeLast 2 remaining with
      | [a, b] => .ok (firstOfRank cards three_rank ++ [b, a])
      | _ => .error .indexError
  | some .TWO_PAIR =>
    let doubles := sortNats (((count_ranks cards).filter (fun rc => rc.2 ≥ 2)).map Prod.fst)
    match takeLast 2 doubles with
    | [second_rank, first_rank] =>
      let remaining :=
        sortByRank (cards.filter (fun c => !(c.rank == first_rank) && !(c.rank == second_rank)))
      match remaining.getLast? with
      | some hc => .ok (firstOfRank cards first_rank ++ firstOfRank cards second_rank ++ [hc])
      | none => .error .indexError
    | _ => .error .indexError
  | some .PAIR =>
    match most_common_key (count_ranks cards) with
    | none => .error .indexError
    | some pair_rank =>
      let remaining := sortByRank (cards.filter (fun c => !(c.rank == pair_rank)))
      match takeLast 3 remaining with
      | [a, b, c] => .ok (firstOfRank cards pair_rank ++ [c, b, a])
      | _ => .error .indexError
  | _ =>
    -- HIGH_CARD, and `hand_class = None`, fall through to the final `else`:
    -- the five highest cards of the rank-sorted hand.
    .ok (takeLast 5 (sortByRank cards))

/-- `PokerHand.determine_strength` (src/cards.py lines 300-305): classify,
then compute the tie-break high cards for the assigned class. -/
def determine_strength (cards : List Card) :
    Except PyError (Option PokerHandClass × List Card) :=
  let cls := classify cards
  match determine_hand_rank cards cls with
  | .ok hc => .ok (cls, hc)
  | .error e => .error e

/-- An evaluated `PokerHand` as far as comparison is concerned
(src/cards.py lines 255-275): an assigned hand class plus the tie-break
`high_cards` list. -/
structure EvaluatedHand where
  hand_class : PokerHandClass
  high_cards : List Card
  deriving DecidableEq

/-- The `for s, o in zip(self.high_cards, other.high_cards)` loop of
`PokerHand.__lt__` (src/cards.py lines 272-275): walk the zipped lists,
decide at the first rank difference, return `False` when the zip runs out.
`s != o` and `s < o` are `Card.__eq__` / `Card.__lt__`, i.e. integer-rank
comparisons. -/
def lexRanks : List Card → List Card → Bool
  | x :: xs, y :: ys => if x.rank == y.rank then lexRanks xs ys else decide (x.rank < y.rank)
  | _, _ => false

/-- `PokerHand.__lt__` (src/cards.py lines 269-275). -/
def PokerHand.lt (a b : EvaluatedHand) : Bool :=
  if a.hand_class ≠ b.hand_class then decide (a.hand_class.value < b.hand_class.value)
  else lexRanks a.high_cards b.high_cards

/-- Python list equality of two card lists: equal lengths and element-wise
`Card.__eq__`, i.e. rank-wise equality. -/
def pyCardListEq (a b : List Card) : Bool :=
  a.length == b.length && (a.zip b).all (fun p => p.1.rank == p.2.rank)

/-- `PokerHand.__eq__` (src/cards.py lines 266-267): same hand class and
(`Card.__eq__`-wise, hence rank-wise) equal `high_cards` lists. -/
def PokerHand.eq (a b : EvaluatedHand) : Bool :=
  a.hand_class == b.hand_class && pyCardListEq a.high_cards b.high_cards

/-- A `Pot` (src/games.py lines 78-104): an insertion-ordered
`player -> contributed amount` dict, keyed here by a numeric player id.
The class defines `__getitem__` but no `__setitem__`. -/
structure Pot where
  contributions : List (Nat × Int)
  deriving DecidableEq

/-- `Pot.__init__`: every listed player starts at contribution 0. -/
def Pot.init (players : List Nat) : Pot :=
  ⟨players.map (fun p => (p, 0))⟩

/-- `Pot.total` (src/games.py lines 82-84). -/
def Pot.total (pot : Pot) : Int :=
  (pot.contributions.map Prod.snd).sum

/-- `Pot.__getitem__` (src/games.py lines 103-104); a missing key raises
`KeyError`. -/
def Pot.getitem (pot : Pot) (player : Nat) : Except PyError Int :=
  match pot.contributions.lookup player with
  | some v => .ok v
  | none => .error .keyError

/-- The `Pots` ledger (src/games.py lines 106-130): the list of pots plus
the index of the active pot (`__init__` makes it pot 0; `create_side_pot`
redirects it to the newly appended pot, so the index always names the pot
the Python `active_pot` reference aliases). -/
structure Pots where
  pots : List Pot
  active : Nat
  deriving DecidableEq

/-- `Pots.__init__` (src/games.py lines 107-109). -/
def Pots.init (initial_players : List Nat) : Pots :=
  ⟨[Pot.init initial_players], 0⟩

/-- The pot the `active_pot` reference points at. -/
def Pots.active_pot (ps : Pots) : Pot :=
  ps.pots.getD ps.active ⟨[]⟩

/-- `Pots.contribute` (src/games.py lines 111-112):
`self.active_pot[player] += amount`.  Python evaluates this augmented
assignment as `active_pot.__setitem__(player, active_pot.__getitem__(player)
+ amount)`; `Pot` (src/games.py lines 78-104) defines `__getitem__` but no
`__setitem__`, so after the lookup succeeds the statement raises
`TypeError` ("'Pot' object does not support item assignment"). -/
def Pots.contribute (ps : Pots) (player : Nat) (amount : Int) : Except PyError Pots :=
  match (ps.active_pot).getitem player with
  | .error e => .error e
  | .ok _ =>
    let _ := amount
    .error .typeError

/-- `Pots.create_side_pot` (src/games.py lines 127-130): append a fresh pot
over `players` and make it the active pot. -/
def Pots.create_side_pot (ps : Pots) (players : List Nat) : Pots :=
  ⟨ps.pots ++ [Pot.init players], ps.pots.length⟩

/-- `Pots.total` (src/games.py lines 123-125). -/
def Pots.total (ps : Pots) : Int :=
  (ps.pots.map Pot.total).sum

/-- One operation of the pot-ledger interface named by claim C1. -/
inductive PotsOp where
  | contribute (player : Nat) (amount : Int)
  | create_side_pot (players : List Nat)
  deriving DecidableEq

/-- Run a sequence of ledger operations, stopping at the first Python
exception. -/
def runPotsOps (ps : Pots) : List PotsOp → Except PyError Pots
  | [] => .ok ps
  | op :: rest =>
    match (match op with
           | .contribute p a => ps.contribute p a
           | .create_side_pot players => .ok (ps.create_side_pot players)) with
    | .ok ps2 => runPotsOps ps2 rest
    | .error e => .error e

/-- `GamePlayer` (src/games.py lines 34-45), reduced to the one field
`increase_bet` reads and writes. -/
structure GamePlayer where
  table_money : Int
  deriving DecidableEq

/-- `GamePlayer.increase_bet` (src/games.py lines 47-57).  `int(amount)` is
the identity on the integers modelled here (a non-integer string would
raise `ValueError`).  Note the guard is `amount >= self.table_money`, so a
bet of the player's exact remaining stack is rejected with
`InsufficientFunds`.  When the guards pass, Python first runs
`self.table_money -= amount` and then `pot[self] += amount`, which raises
`TypeError` because `Pot` defines no `__setitem__` (see `Pots.contribute`);
the debited stack is left behind, but no call ever returns normally. -/
def increase_bet (p : GamePlayer) (pot : Pot) (amount : Int) :
    Except PyError (GamePlayer × Pot) :=
  if amount < 0 then .error .valueError
  else if amount ≥ p.table_money then .error .insufficientFunds
  else
    let _ := pot
    .error .typeError

/-- One blind posting of `HoldEmGameManager.post_blinds` (src/holdem.py
lines 260-284): try `increase_bet` with the blind; on `InsufficientFunds`
retry with the player's whole remaining stack.  The source actually writes
`player.increase_bet(blind, pot)`, transposing the `(pot, amount)`
parameters of `GamePlayer.increase_bet`, so in Python `int(amount)` is
applied to the `Pot` object and raises `TypeError` before any of this
logic runs; the embedding models the evidently intended call
`increase_bet(pot, blind)` so that the `InsufficientFunds` retry path can
be exercised at all. -/
def post_blinds_one (p : GamePlayer) (pot : Pot) (blind : Int) :
    Except PyError (GamePlayer × Pot) :=
  match increase_bet p pot blind with
  | .error .insufficientFunds => increase_bet p pot p.table_money
  | r => r

/-- A seated `HoldEmPlayer` (src/holdem.py lines 22-26 and src/games.py
lines 34-38) as read by `betting_complete` and `move_better`.
`contribution` is the player's entry `pot[player]` in the active pot,
inlined here because `betting_complete` looks every seated player up in
that pot (the state after `initialize_pot`, whose single main pot is keyed
by exactly the seated players). -/
structure HoldEmPlayer where
  table_money : Int
  is_active : Bool
  has_had_turn : Bool
  contribution : Int
  deriving DecidableEq

/-- Python `max` over a list of integers. -/
def maxInt? : List Int → Option Int
  | [] => none
  | x :: xs => some (xs.foldl max x)

/-- `Pot.largest_contribution` (src/games.py lines 86-88) of the active pot,
over the seated players.  Python `max` raises `ValueError` on an empty pot;
the default is never observed because the value is only compared inside a
loop over the same (then nonempty) player list. -/
def largest_contribution (players : List HoldEmPlayer) : Int :=
  (maxInt? (players.map (fun p => p.contribution))).getD 0

/-- `HoldEmTable.betting_complete` (src/holdem.py lines 115-122): every
player has matched the largest contribution, is broke, or has folded — and
(second conjunct, over ALL players) every player has had a turn. -/
def betting_complete (players : List HoldEmPlayer) : Bool :=
  players.all (fun p =>
    (p.contribution == largest_contribution players)
      || (p.table_money == 0)
      || (p.is_active == false))
  && players.all (fun p => p.has_had_turn)

/-- The round-completion predicate as the specification words it (claim C8):
the same first conjunct, but with the has-acted requirement restricted to
still-active players with a nonzero stack.  This definition follows the
spec's words, for comparison with `betting_complete` above. -/
def betting_complete_spec (players : List HoldEmPlayer) : Bool :=
  players.all (fun p =>
    (p.contribution == largest_contribution players)
      || (p.table_money == 0)
      || (p.is_active == false))
  && players.all (fun p => !(p.is_active && !(p.table_money == 0)) || p.has_had_turn)

/-- `self.players[j].is_active` for the seat index `j` (always in range in
the source because `j` was just reduced mod `len(self.players)`). -/
def isActiveAt (players : List HoldEmPlayer) (j : Nat) : Bool :=
  match players.get? j with
  | some p => p.is_active
  | none => false

/-- `HoldEmTable.move_better` (src/holdem.py lines 124-129), as a fuel-
indexed unrolling of the `while True` loop: each iteration advances the
better index by one modulo the number of seats and stops at the first
active player; `none` means the loop has not terminated within `fuel`
iterations.  For an empty seat list Python would raise `ZeroDivisionError`
at `% 0`; the loop is only ever run on a table with players. -/
def move_better_steps (players : List HoldEmPlayer) (i : Nat) : Nat → Option Nat
  | 0 => none
  | fuel + 1 =>
    let j := (i + 1) % players.length
    if isActiveAt players j then some j else move_better_steps players j fuel

/-- The loop body of `HoldEmTable.rank_players_by_hands` (src/holdem.py
lines 151-158): walk the remaining `(player, hand)` pairs, incrementing
`rank` whenever the pair's hand is weaker (`PokerHand.__lt__`) than the
FIRST player's hand `h0`, and record the running rank. -/
def rankLoop (h0 : EvaluatedHand) : Nat → List (Nat × EvaluatedHand) → List (Nat × Nat)
  | _, [] => []
  | rank, (p, h) :: rest =>
    let rank2 := if PokerHand.lt h h0 then rank + 1 else rank
    (p, rank2) :: rankLoop h0 rank2 rest

/-- `HoldEmTable.rank_players_by_hands` (src/holdem.py lines 151-158).
`showdown` calls it on the `(player, hand)` list sorted by hand strength
in descending order, so the first pair is the strongest hand and receives
rank 0.  On an empty list the source would raise `IndexError` at
`player_hands[0]`; showdown always passes at least one active player. -/
def rank_players_by_hands (player_hands : List (Nat × EvaluatedHand)) : List (Nat × Nat) :=
  match player_hands with
  | [] => []
  | (p0, h0) :: rest => (p0, 0) :: rankLoop h0 0 rest

/-- The per-pot payout of `Table.award_pot` (src/games.py lines 209-231),
returning the `(player, winnings)` awards it performs via
`change_table_money`.  Eligibility is modelled from the spec: the source
reads `pot.players_in_pot`, an attribute `Pot` never defines (running it
raises `AttributeError`); the spec's "players eligible for that specific
pot" is modelled as the players keyed in the pot's contributions.
`highest_rank = max(...)` is Python `max` over the rank indices produced by
`rank_players_by_hands` — where index 0 is the STRONGEST hand — and a lone
winner gets `pot.total`, several split `pot.total // len(winners)`
(Python floor division). -/
def award_one_pot (rankings : List (Nat × Nat)) (pot : Pot) : List (Nat × Int) :=
  let winning := rankings.filter (fun pr => (pot.contributions.map Prod.fst).contains pr.1)
  let highest_rank := (maxNat? (winning.map Prod.snd)).getD 0
  let winners := (winning.filter (fun pr => pr.2 == highest_rank)).map Prod.fst
  if winners.length == 1 then winners.map (fun w => (w, pot.total))
  else winners.map (fun w => (w, pot.total.fdiv winners.length))

/-- The 7-card hand of claim C4: a heart flush 2-4-6-8-10 plus the cross-
suit straight 2♥ 3♠ 4♥ 5♣ 6♥; no 5-card subset is both a straight and a
flush. -/
def c4MixedHand : List Card :=
  [⟨.HEARTS, 2⟩, ⟨.SPADES, 3⟩, ⟨.HEARTS, 4⟩, ⟨.CLUBS, 5⟩,
   ⟨.HEARTS, 6⟩, ⟨.HEARTS, 8⟩, ⟨.HEARTS, 10⟩]

/-- The two-triple hand {A,A,A,K,K,K,2} of claim C5 (suits chosen so that
no flush is present). -/
def c5TwoTriples : List Card :=
  [⟨.HEARTS, 1⟩, ⟨.SPADES, 1⟩, ⟨.DIAMONDS, 1⟩,
   ⟨.HEARTS, 13⟩, ⟨.SPADES, 13⟩, ⟨.DIAMONDS, 13⟩, ⟨.HEARTS, 2⟩]

/-- The wheel A-2-3-4-5 of hearts of claim C6. -/
def c6Wheel : List Card :=
  [⟨.HEARTS, 1⟩, ⟨.HEARTS, 2⟩, ⟨.HEARTS, 3⟩, ⟨.HEARTS, 4⟩, ⟨.HEARTS, 5⟩]

/-- Claim C3's showdown: player 0's evaluated hand, a pair of kings. -/
def c3StrongHand : EvaluatedHand :=
  ⟨.PAIR, [⟨.HEARTS, 13⟩, ⟨.HEARTS, 12⟩, ⟨.HEARTS, 11⟩, ⟨.HEARTS, 9⟩]⟩

/-- Claim C3's showdown: player 1's evaluated hand, king high only. -/
def c3WeakHand : EvaluatedHand :=
  ⟨.HIGH_CARD, [⟨.SPADES, 13⟩, ⟨.SPADES, 12⟩, ⟨.SPADES, 11⟩, ⟨.SPADES, 9⟩, ⟨.SPADES, 8⟩]⟩

/-- Claim C3's main pot: players 0 and 1 contributed 10 chips each. -/
def c3MainPot : Pot :=
  ⟨[(0, 10), (1, 10)]⟩

/-- Claim C8's distinguishing table state: player 0 is active, has matched
the largest contribution (2) and has acted; player 1 went all-in for 1 chip
posting a blind (stack 0) and has not acted this street. -/
def c8State : List HoldEmPlayer :=
  [⟨5, true, true, 2⟩, ⟨0, true, false, 1⟩]

/-- A completed betting round used to witness the amended claim C8: both
players active, equal contributions, both have acted. -/
def c8CompleteState : List HoldEmPlayer :=
  [⟨5, true, true, 2⟩, ⟨7, true, true, 2⟩]

/-- Concrete evaluated hands for the claim C7 witness. -/
def c7FlushHand : EvaluatedHand :=
  ⟨.FLUSH, [⟨.HEARTS, 13⟩, ⟨.HEARTS, 11⟩, ⟨.HEARTS, 9⟩, ⟨.HEARTS, 7⟩, ⟨.HEARTS, 4⟩]⟩

def c7PairHand : EvaluatedHand :=
  ⟨.PAIR, [⟨.CLUBS, 10⟩, ⟨.CLUBS, 13⟩, ⟨.CLUBS, 9⟩, ⟨.CLUBS, 4⟩]⟩

def c7HighCardHand : EvaluatedHand :=
  ⟨.HIGH_CARD, [⟨.SPADES, 13⟩, ⟨.SPADES, 11⟩, ⟨.SPADES, 9⟩, ⟨.SPADES, 7⟩, ⟨.SPADES, 4⟩]⟩

/-- The same class and ranks as `c7PairHand` with different suits: equal
under `PokerHand.__eq__`. -/
def c7PairHandOtherSuits : EvaluatedHand :=
  ⟨.PAIR, [⟨.DIAMONDS, 10⟩, ⟨.HEARTS, 13⟩, ⟨.SPADES, 9⟩, ⟨.HEARTS, 4⟩]⟩

/-- Claim C10 witness table: seats 0 and 1 folded, seat 2 active. -/
def c10Players : List HoldEmPlayer :=
  [⟨5, false, false, 0⟩, ⟨5, false, false, 0⟩, ⟨5, true, false, 0⟩]

/-- Claim C10 witness table with every seat folded. -/
def c10AllFolded : List HoldEmPlayer :=
  [⟨5, false, false, 0⟩, ⟨5, false, false, 0⟩, ⟨5, false, false, 0⟩]

/-- The zip-lexicographic comparison of `PokerHand.__lt__` is transitive. -/
theorem lexRanks_trans : ∀ a b c : List Card,
    lexRanks a b = true → lexRanks b c = true → lexRanks a c = true := by
  intro a
  induction a with
  | nil => intro b c hab; simp [lexRanks] at hab
  | cons x xs ih =>
    intro b c hab hbc
    cases b with
    | nil => simp [lexRanks] at hab
    | cons y ys =>
      cases c with
      | nil => simp [lexRanks] at hbc
      | cons z zs =>
        simp only [lexRanks, beq_iff_eq] at hab hbc ⊢
        by_cases hxy : x.rank = y.rank
        · rw [if_pos hxy] at hab
          by_cases hyz : y.rank = z.rank
          · rw [if_pos hyz] at hbc
            rw [if_pos (hxy.trans hyz)]
            exact ih ys zs hab hbc
          · rw [if_neg hyz, decide_eq_true_eq] at hbc
            have hxz : x.rank ≠ z.rank := by omega
            rw [if_neg hxz, decide_eq_true_eq]
            omega
        · rw [if_neg hxy, decide_eq_true_eq] at hab
          by_cases hyz : y.rank = z.rank
          · have hxz : x.rank ≠ z.rank := by omega
            rw [if_neg hxz, decide_eq_true_eq]
            omega
          · rw [if_neg hyz, decide_eq_true_eq] at hbc
            have hxz : x.rank ≠ z.rank := by omega
            rw [if_neg hxz, decide_eq_true_eq]
            omega

/-- `PokerHand.__lt__` is transitive on evaluated hands. -/
theorem poker_lt_trans (a b c : EvaluatedHand) :
    PokerHand.lt a b = true → PokerHand.lt b c = true → PokerHand.lt a c = true := by
  intro hab hbc
  unfold PokerHand.lt at hab hbc ⊢
  by_cases h1 : a.hand_class = b.hand_class
  · rw [if_neg (not_not_intro h1)] at hab
    by_cases h2 : b.hand_class = c.hand_class
    · rw [if_neg (not_not_intro h2)] at hbc
      rw [if_neg (not_not_intro (h1.trans h2))]
      exact lexRanks_trans _ _ _ hab hbc
    · have h3 : a.hand_class ≠ c.hand_class := fun h => h2 (h1.symm.trans h)
      rw [if_pos h2, decide_eq_true_eq] at hbc
      rw [if_pos h3, decide_eq_true_eq]
      rw [congrArg PokerHandClass.value h1]
      exact hbc
  · rw [if_pos h1, decide_eq_true_eq] at hab
    by_cases h2 : b.hand_class = c.hand_class
    · have h3 : a.hand_class ≠ c.hand_class := fun h => h1 (h.trans h2.symm)
      rw [if_pos h3, decide_eq_true_eq]
      rw [← congrArg PokerHandClass.value h2]
      exact hab
    · rw [if_pos h2, decide_eq_true_eq] at hbc
      have h3 : a.hand_class ≠ c.hand_class := by
        intro h
        rw [h] at hab
        omega
      rw [if_pos h3, decide_eq_true_eq]
      omega

/-- Python list equality of card lists is rank-wise list equality. -/
theorem pyCardListEq_iff : ∀ a b : List Card,
    pyCardListEq a b = true ↔ a.map Card.rank = b.map Card.rank := by
  intro a
  induction a with
  | nil => intro b; cases b <;> simp [pyCardListEq]
  | cons x xs ih =>
    intro b
    cases b with
    | nil => simp [pyCardListEq]
    | cons y ys =>
      have step : pyCardListEq (x :: xs) (y :: ys) = true ↔
          (x.rank = y.rank ∧ pyCardListEq xs ys = true) := by
        simp [pyCardListEq]
        tauto
      rw [step, ih]
      simp

/-- When no 5-card combination is a straight flush, `_classify` returns one
of the other eight classes. -/
theorem _classify_ne_straight_flush (hand : List Card)
    (h : ¬ is_straight_flush hand = true) :
    _classify hand ≠ PokerHandClass.STRAIGHT_FLUSH := by
  unfold _classify
  rw [if_neg h]
  repeat' split
  all_goals simp

/-- `_is_straight_flush` holds exactly when some length-5 subsequence of the
hand passes both `_is_straight` and `_is_flush`. -/
theorem is_straight_flush_iff (hand : List Card) :
    is_straight_flush hand = true ↔
      ∃ s, s.Sublist hand ∧ s.length = 5 ∧ is_straight s = true ∧ is_flush s = true := by
  unfold is_straight_flush
  rw [List.any_eq_true]
  constructor
  · rintro ⟨s, hmem, hp⟩
    rw [List.mem_sublistsLen] at hmem
    refine ⟨s, hmem.1, hmem.2, ?_⟩
    simpa [is_straight_flush_five, Bool.and_eq_true] using hp
  · rintro ⟨s, h1, h2, h3, h4⟩
    exact ⟨s, List.mem_sublistsLen.mpr ⟨h1, h2⟩, by simp [is_straight_flush_five, h3, h4]⟩

/-- C1: the claimed conservation invariant has no state to hold of: the very
first `contribute` of any sequence already raises `TypeError` (class `Pot`
defines `__getitem__` but no `__setitem__`, so `self.active_pot[player] +=
amount` is item assignment on an object that does not support it), so a
freshly initialized ledger given the single contribution of 5 chips by
player 0 never reaches a final state whose pot totals could be summed. -/
theorem c1_conservation_unreachable :
    runPotsOps (Pots.init [0]) [PotsOp.contribute 0 5] = Except.error PyError.typeError := rfl

/-- C2: contrary to the claim that the ledger never rejects a contribution,
`Pots.contribute` raises `TypeError` for every ledger state, every player
present in the active pot, and every amount, because `Pot` has no
`__setitem__` method for the `+=` item assignment to call. -/
theorem c2_contribute_always_type_error (ps : Pots) (player : Nat) (amount : Int)
    (h : (ps.active_pot.contributions.lookup player).isSome = true) :
    ps.contribute player amount = Except.error PyError.typeError := by
  cases hl : ps.active_pot.contributions.lookup player with
  | none => rw [hl] at h; simp at h
  | some v => simp [Pots.contribute, Pot.getitem, hl]

theorem c2_contribute_always_type_error_witness :
    (Pots.init [0]).contribute 0 5 = Except.error PyError.typeError :=
  c2_contribute_always_type_error (Pots.init [0]) 0 5 (by rfl)

/-- C3: at showdown the pot is paid to the WEAKEST eligible hand, not the
strongest: with two players in a 20-chip pot, player 0 holding a pair of
kings and player 1 only king high (`PokerHand.__lt__` confirms player 1's
hand is strictly weaker), `rank_players_by_hands` gives ranks 0 and 1 to
players 0 and 1, and `award_pot`'s `max` over those rank indices selects
player 1, who receives the whole pot. -/
theorem c3_pot_awarded_to_weakest :
    PokerHand.lt c3WeakHand c3StrongHand = true ∧
    award_one_pot (rank_players_by_hands [(0, c3StrongHand), (1, c3WeakHand)]) c3MainPot
      = [(1, 20)] := ⟨rfl, rfl⟩

/-- C4: for a hand of at least 5 cards, classification returns
StraightFlush exactly when some 5-card subsequence is simultaneously a
straight and a flush; and the concrete 7-card hand with a heart flush plus
a cross-suit straight (no subset being both) is not classified
StraightFlush. -/
theorem c4_straight_flush_subset_iff (hand : List Card) (h5 : 5 ≤ hand.length) :
    (classify hand = some PokerHandClass.STRAIGHT_FLUSH ↔
      ∃ s, s.Sublist hand ∧ s.length = 5 ∧ is_straight s = true ∧ is_flush s = true) ∧
    classify c4MixedHand ≠ some PokerHandClass.STRAIGHT_FLUSH := by
  constructor
  · rw [← is_straight_flush_iff]
    unfold classify
    rw [if_neg (by omega)]
    constructor
    · intro h
      by_contra hsf
      exact _classify_ne_straight_flush hand hsf (Option.some.inj h)
    · intro h
      unfold _classify
      rw [if_pos h]
  · decide

theorem c4_straight_flush_subset_iff_witness :
    classify c4MixedHand ≠ some PokerHandClass.STRAIGHT_FLUSH :=
  (c4_straight_flush_subset_iff c4MixedHand (by decide)).2

/-- C5: the two-triple hand {A,A,A,K,K,K,2} does classify as FullHouse, but
its computed high cards are [King, Ace] — not the claimed [Ace, King] —
because `determine_hand_rank` picks the triple with Python `max` over the
raw integer ranks, where Ace is 1 and loses to King's 13. -/
theorem c5_two_triples_high_cards :
    classify c5TwoTriples = some PokerHandClass.FULL_HOUSE ∧
    determine_strength c5TwoTriples
      = Except.ok (some PokerHandClass.FULL_HOUSE, [⟨Suit.HEARTS, 13⟩, ⟨Suit.HEARTS, 1⟩]) :=
  ⟨rfl, rfl⟩

/-- C6: the suited wheel A-2-3-4-5 classifies as StraightFlush, its single
tie-break high card is the 5 of the suit, and its evaluation raises no
error. -/
theorem c6_wheel_straight_flush :
    determine_strength c6Wheel
      = Except.ok (some PokerHandClass.STRAIGHT_FLUSH, [⟨Suit.HEARTS, 5⟩]) := rfl

/-- C7: hand comparison is transitive modulo ties and `PokerHand.__eq__`
means same class and rank-wise identical high-card lists.  `PokerHand`
defines no `__gt__` (and is not decorated with `total_ordering`), so the
Python expression `X > Y` dispatches to the reflected `Y.__lt__(X)`: the
first conjunct is exactly "X > Y and Y > Z implies X > Z". -/
theorem c7_evaluated_hand_order (X Y Z : EvaluatedHand) :
    (PokerHand.lt Y X = true → PokerHand.lt Z Y = true → PokerHand.lt Z X = true) ∧
    (PokerHand.eq X Y = true ↔
      X.hand_class = Y.hand_class ∧
        X.high_cards.map Card.rank = Y.high_cards.map Card.rank) := by
  constructor
  · intro h1 h2
    exact poker_lt_trans Z Y X h2 h1
  · unfold PokerHand.eq
    rw [Bool.and_eq_true, beq_iff_eq, pyCardListEq_iff]

theorem c7_evaluated_hand_order_witness :
    PokerHand.lt c7HighCardHand c7FlushHand = true ∧
    PokerHand.eq c7PairHand c7PairHandOtherSuits = true :=
  ⟨(c7_evaluated_hand_order c7FlushHand c7PairHand c7HighCardHand).1 (by decide) (by decide),
   (c7_evaluated_hand_order c7PairHand c7PairHandOtherSuits c7HighCardHand).2.mpr
     ⟨rfl, rfl⟩⟩

/-- C8 counterexample: in the state where player 0 has matched the largest
contribution and acted while player 1 is all-in (stack 0) but has not yet
acted, the claimed condition (which exempts all-in players from the
has-acted requirement) holds, yet `betting_complete` is false, since its
second conjunct demands `has_had_turn` of every player. -/
theorem c8_claim_counterexample :
    ¬ (betting_complete c8State = true ↔ betting_complete_spec c8State = true) := by decide

/-- C8 (amended): `betting_complete()` is true iff every player has matched
the active pot's largest contribution, or has zero stack, or is inactive —
AND every player (including folded and all-in players, not only the
still-active funded ones) has acted at least once this street. -/
theorem c8_betting_complete_iff (players : List HoldEmPlayer) :
    betting_complete players = true ↔
      ((∀ p ∈ players, p.contribution = largest_contribution players ∨
          p.table_money = 0 ∨ p.is_active = false) ∧
        (∀ p ∈ players, p.has_had_turn = true)) := by
  simp [betting_complete, List.all_eq_true, or_assoc]

theorem c8_betting_complete_iff_witness :
    betting_complete c8CompleteState = true :=
  (c8_betting_complete_iff c8CompleteState).mpr (by decide)

/-- C9: posting a blind of 2 for a player whose stack is 1 raises
`InsufficientFunds` instead of putting the player all-in: the
`increase_bet` guard `amount >= self.table_money` also rejects a bet of the
exact remaining stack, so `post_blinds`' retry with the whole stack raises
again, and the second raise is not caught. -/
theorem c9_underfunded_blind_raises :
    post_blinds_one ⟨1⟩ (Pot.init [0, 1]) 2 = Except.error PyError.insufficientFunds := rfl

/-- With every player folded the `move_better` loop never exits: no fuel
makes the unrolling terminate. -/
theorem move_better_none (players : List HoldEmPlayer)
    (hall : ∀ p ∈ players, p.is_active = false) :
    ∀ fuel i, move_better_steps players i fuel = none := by
  intro fuel
  induction fuel with
  | zero => intro i; rfl
  | succ n ih =>
    intro i
    have hact : isActiveAt players ((i + 1) % players.length) = false := by
      unfold isActiveAt
      cases hg : players.get? ((i + 1) % players.length) with
      | none => rfl
      | some p => exact hall p (List.get?_mem hg)
    simp only [move_better_steps, hact, Bool.false_eq_true, if_false]
    exact ih _

/-- If seat `(i + k) % n` is the first active seat strictly after `i` in
cyclic order, the `move_better` loop run with at least `k` iterations of
fuel stops exactly there. -/
theorem move_better_reaches (players : List HoldEmPlayer) :
    ∀ fuel k i, 1 ≤ k → k ≤ fuel →
      isActiveAt players ((i + k) % players.length) = true →
      (∀ m, 1 ≤ m → m < k → isActiveAt players ((i + m) % players.length) = false) →
      move_better_steps players i fuel = some ((i + k) % players.length) := by
  intro fuel
  induction fuel with
  | zero => intro k i h1 h2 _ _; omega
  | succ n ih =>
    intro k i h1 h2 hact hmin
    by_cases hk : k = 1
    · subst hk
      simp only [move_better_steps, hact, if_true]
    · have hj : isActiveAt players ((i + 1) % players.length) = false :=
        hmin 1 le_rfl (by omega)
      simp only [move_better_steps, hj, Bool.false_eq_true, if_false]
      have e1 : ((i + 1) % players.length + (k - 1)) % players.length
          = (i + k) % players.length := by
        rw [Nat.mod_add_mod]
        congr 1
        omega
      refine (ih (k - 1) ((i + 1) % players.length) (by omega) (by omega) ?_ ?_).trans
        (by rw [e1])
      · rw [e1]
        exact hact
      · intro m hm1 hm2
        have e2 : ((i + 1) % players.length + m) % players.length
            = (i + (m + 1)) % players.length := by
          rw [Nat.mod_add_mod]
          congr 1
          omega
        rw [e2]
        exact hmin (m + 1) (by omega) (by omega)

/-- Every seat `j` of the table is reached from `i` by some cyclic advance
of between 1 and `n` steps. -/
theorem exists_cyclic_offset (i j n : Nat) (hn : 0 < n) (hj : j < n) :
    ∃ k, 1 ≤ k ∧ k ≤ n ∧ (i + k) % n = j := by
  have hr : i % n < n := Nat.mod_lt i hn
  rcases Nat.lt_or_ge (i % n) j with h | h
  · refine ⟨j - i % n, by omega, by omega, ?_⟩
    rw [← Nat.mod_add_mod]
    rw [show i % n + (j - i % n) = j from by omega]
    exact Nat.mod_eq_of_lt hj
  · refine ⟨j + n - i % n, by omega, by omega, ?_⟩
    rw [← Nat.mod_add_mod]
    rw [show i % n + (j + n - i % n) = j + n from by omega]
    rw [Nat.add_mod_right]
    exact Nat.mod_eq_of_lt hj

/-- C10: whenever some player at the table is active, `move_better`
terminates (fuel `len(players)` suffices) and moves the better index to the
next active seat in cyclic order — the seats strictly between are all
inactive; and when no player is active the loop never terminates (for a
nonempty table; on an empty table Python would instead raise
`ZeroDivisionError` at `% 0`). -/
theorem c10_move_better_spec (players : List HoldEmPlayer) (i : Nat) :
    ((∃ p ∈ players, p.is_active = true) →
      ∃ k, 1 ≤ k ∧ k ≤ players.length ∧
        (∀ m, 1 ≤ m → m < k → isActiveAt players ((i + m) % players.length) = false) ∧
        isActiveAt players ((i + k) % players.length) = true ∧
        move_better_steps players i players.length
          = some ((i + k) % players.length)) ∧
    (players ≠ [] → (∀ p ∈ players, p.is_active = false) →
      ∀ fuel, move_better_steps players i fuel = none) := by
  constructor
  · intro hex
    obtain ⟨p, hpmem, hpact⟩ := hex
    obtain ⟨j, hjlt, hjget⟩ := List.mem_iff_getElem.mp hpmem
    have hjact : isActiveAt players j = true := by
      unfold isActiveAt
      have hg : players.get? j = some p := by
        rw [List.get?_eq_getElem?, List.getElem?_eq_getElem hjlt, hjget]
      rw [hg]
      exact hpact
    obtain ⟨k0, hk1, hk2, hk3⟩ := exists_cyclic_offset i j players.length (by omega) hjlt
    have hP : ∃ m, isActiveAt players ((i + (m + 1)) % players.length) = true := by
      refine ⟨k0 - 1, ?_⟩
      rw [show i + (k0 - 1 + 1) = i + k0 from by omega, hk3]
      exact hjact
    have hle : Nat.find hP ≤ k0 - 1 := by
      apply Nat.find_min' hP
      rw [show i + (k0 - 1 + 1) = i + k0 from by omega, hk3]
      exact hjact
    have hspec : isActiveAt players ((i + (Nat.find hP + 1)) % players.length) = true :=
      Nat.find_spec hP
    have hmin : ∀ m, 1 ≤ m → m < Nat.find hP + 1 →
        isActiveAt players ((i + m) % players.length) = false := by
      intro m hm1 hm2
      have hm := Nat.find_min hP (show m - 1 < Nat.find hP from by omega)
      rw [show i + (m - 1 + 1) = i + m from by omega] at hm
      simpa using hm
    refine ⟨Nat.find hP + 1, by omega, by omega, hmin, hspec, ?_⟩
    exact move_better_reaches players players.length (Nat.find hP + 1) i (by omega)
      (by omega) hspec hmin
  · intro _ hall fuel
    exact move_better_none players hall fuel i

theorem c10_move_better_spec_witness :
    (∃ k, 1 ≤ k ∧ k ≤ c10Players.length ∧
      (∀ m, 1 ≤ m → m < k → isActiveAt c10Players ((0 + m) % c10Players.length) = false) ∧
      isActiveAt c10Players ((0 + k) % c10Players.length) = true ∧
      move_better_steps c10Players 0 c10Players.length
        = some ((0 + k) % c10Players.length)) ∧
    move_better_steps c10AllFolded 0 7 = none :=
  ⟨(c10_move_better_spec c10Players 0).1 (by decide),
   (c10_move_better_spec c10AllFolded 0).2 (by decide) (by decide) 7⟩
